import Mathlib

/-!
Shallow embedding of the e-commerce backend in `backend/server.py`:
in-memory product catalog, user registration/login with token-based
authentication, and a per-user shopping cart keyed by user id.

Modelling conventions:
* Python lists become Lean `List`s; the `carts_db` dict becomes an
  association list read and written through `dictGet` / `dictSet`
  (first-match semantics, which agrees with a dict whose keys are unique).
* `datetime.now()` timestamps (`updated_at`, `created_at`) are elided:
  they are wall-clock nondeterminism that no verified property mentions.
* `uuid.uuid4()` fresh identifiers are passed in as explicit parameters
  (or fixed distinct strings in the seed catalog).
* Prices (Python floats such as 199.99) are modelled as rationals.
* Quantities are Python ints, modelled as `Int` (the code never bounds
  or sign-checks them).
* `HTTPException` escapes become `Except String` with the code's detail
  message as payload.
-/

namespace Ecommerce

/-- Product record, as in the `Product` pydantic model. -/
structure Product where
  id : String
  name : String
  description : String
  price : ℚ
  image : String
  category : String
  stock : Nat
deriving Repr, DecidableEq

/-- User record, as in the `User` pydantic model (`created_at` elided;
`password` holds the stored hash, as in the code). -/
structure User where
  id : String
  email : String
  password : String
  name : String
deriving Repr, DecidableEq

/-- One cart line: `CartItem` in the code. -/
structure CartItem where
  product_id : String
  quantity : Int
deriving Repr, DecidableEq

/-- A user's cart: `Cart` in the code (`updated_at` elided). -/
structure Cart where
  user_id : String
  items : List CartItem
deriving Repr, DecidableEq

/-- The `carts_db` dict, keyed by user id. -/
abbrev CartsDb : Type := List (String × Cart)

/-- Lookup `d.get(k)`: first-match lookup in an association list. -/
def dictGet {α : Type} (d : List (String × α)) (k : String) : Option α :=
  match d with
  | [] => none
  | (k', v) :: t => if k' == k then some v else dictGet t k

/-- Assignment `d[k] = v`: replace the first binding of `k`, or append a new one. -/
def dictSet {α : Type} (d : List (String × α)) (k : String) (v : α) :
    List (String × α) :=
  match d with
  | [] => [(k, v)]
  | (k', v') :: t => if k' == k then (k, v) :: t else (k', v') :: dictSet t k v

/-- The whole in-memory server state (the module-level globals
`products_db`, `users_db`, `carts_db`; `orders_db` is never used). -/
structure ServerState where
  products_db : List Product
  users_db : List User
  carts_db : CartsDb
deriving DecidableEq

/-- The ten seed products installed by `init_products()`. The runtime
`uuid4` ids are modelled as the fixed distinct strings id01..id10; every
other field is verbatim from the source. -/
def seedProducts : List Product :=
  [ { id := "id01", name := "Wireless Headphones",
      description := "Premium wireless headphones with noise cancellation and superior sound quality",
      price := 19999/100,
      image := "https://images.unsplash.com/photo-1498049794561-7780e7231661",
      category := "Electronics", stock := 50 },
    { id := "id02", name := "Athletic Sneakers",
      description := "Comfortable and stylish athletic shoes perfect for running and daily wear",
      price := 12999/100,
      image := "https://images.unsplash.com/photo-1560769629-975ec94e6a86",
      category := "Fashion", stock := 30 },
    { id := "id03", name := "Modern Office Chair",
      description := "Ergonomic office chair with premium comfort and adjustable features",
      price := 29999/100,
      image := "https://images.unsplash.com/photo-1579656592043-a20e25a4aa4b",
      category := "Furniture", stock := 25 },
    { id := "id04", name := "Desktop Computer Setup",
      description := "Complete desktop workstation with high-performance components",
      price := 129999/100,
      image := "https://images.pexels.com/photos/356056/pexels-photo-356056.jpeg",
      category := "Electronics", stock := 15 },
    { id := "id05", name := "Fashion Accessories Set",
      description := "Curated collection of stylish fashion accessories",
      price := 7999/100,
      image := "https://images.unsplash.com/photo-1492707892479-7bc8d5a4ee93",
      category := "Fashion", stock := 40 },
    { id := "id06", name := "Home Decor Collection",
      description := "Beautiful home decor items to enhance your living space",
      price := 15999/100,
      image := "https://images.unsplash.com/photo-1496180727794-817822f65950",
      category := "Home", stock := 35 },
    { id := "id07", name := "Arduino Development Kit",
      description := "Complete Arduino starter kit for electronics projects and learning",
      price := 8999/100,
      image := "https://images.unsplash.com/photo-1603732551658-5fabbafa84eb",
      category := "Electronics", stock := 60 },
    { id := "id08", name := "Lifestyle Products Bundle",
      description := "Carefully selected lifestyle products for modern living",
      price := 24999/100,
      image := "https://images.unsplash.com/photo-1511556820780-d912e42b4980",
      category := "Lifestyle", stock := 20 },
    { id := "id09", name := "Beauty Essentials",
      description := "Premium beauty products for your daily routine",
      price := 11999/100,
      image := "https://images.pexels.com/photos/32497344/pexels-photo-32497344.jpeg",
      category := "Beauty", stock := 45 },
    { id := "id10", name := "Home Organization Set",
      description := "Complete home organization solution for better living",
      price := 17999/100,
      image := "https://images.pexels.com/photos/3735219/pexels-photo-3735219.jpeg",
      category := "Home", stock := 30 } ]

/-- Test `strStarts p s`: the char list `p` is an initial segment of `s`. -/
def strStarts : List Char → List Char → Bool
  | [], _ => true
  | _ :: _, [] => false
  | a :: p, b :: s => a == b && strStarts p s

/-- Test `hasSub needle hay`: `needle` occurs contiguously in `hay`
(Python's `needle in hay` on strings; the empty needle always occurs). -/
def hasSub (needle : List Char) : List Char → Bool
  | [] => needle.isEmpty
  | b :: t => strStarts needle (b :: t) || hasSub needle t

/-- Python `needle in hay` for strings. -/
def strContains (hay needle : String) : Bool :=
  hasSub needle.data hay.data

/-- Python `s.lower()`: lower-case every character. -/
def strLower (s : String) : String :=
  ⟨s.data.map Char.toLower⟩

/-- Lexicographic (code-point) order on char lists, Python's string `<=`. -/
def charListLe : List Char → List Char → Bool
  | [], _ => true
  | _ :: _, [] => false
  | a :: s, b :: t => if a < b then true else if a = b then charListLe s t else false

/-- Python's string `<=`. -/
def strLeB (a b : String) : Bool :=
  charListLe a.data b.data

/-- Insert a string into an already sorted list, keeping it sorted. -/
def insertSorted (x : String) : List String → List String
  | [] => [x]
  | y :: t => if strLeB x y then x :: y :: t else y :: insertSorted x t

/-- Python `sorted` on strings: ascending lexicographic insertion sort. -/
def sortStrings : List String → List String
  | [] => []
  | x :: t => insertSorted x (sortStrings t)

/-- Endpoint `get_products(category, search)`: copy of the catalog, narrowed by the
two optional filters. Python truthiness: an empty string argument (like
`None`) disables the corresponding filter. -/
def get_products (products_db : List Product)
    (category search : Option String) : List Product :=
  let afterCategory :=
    match category with
    | none => products_db
    | some c =>
        if c == "" then products_db
        else products_db.filter (fun p => strLower p.category == strLower c)
  match search with
  | none => afterCategory
  | some s =>
      if s == "" then afterCategory
      else
        let searchLower := strLower s
        afterCategory.filter (fun p =>
          strContains (strLower p.name) searchLower ||
          strContains (strLower p.description) searchLower)

/-- Endpoint `get_product(product_id)`: single product lookup, 404 when absent. -/
def get_product (products_db : List Product) (product_id : String) :
    Except String Product :=
  match products_db.find? (fun p => p.id == product_id) with
  | none => .error "Product not found"
  | some p => .ok p

/-- Endpoint `get_categories()`: `sorted(list(set(p["category"] for p in products_db)))`.
Python's set iteration order is arbitrary, but after sorting the result is
exactly the distinct categories in ascending lexicographic order, which
de-duplicating and sorting computes. -/
def get_categories (products_db : List Product) : List String :=
  sortStrings ((products_db.map (fun p => p.category)).dedup)

/-- The claims a token carries: `{"user_id": ..., "email": ...}`. -/
structure TokenPayload where
  user_id : String
  email : String
deriving Repr, DecidableEq

/-- A signed token. `jwt.encode`/`jwt.decode` under the fixed process-wide
HS256 secret are modelled abstractly: a token issued by the server wraps its
payload, and verification of such a token recovers exactly that payload.
Forged or tampered tokens (which `jwt.decode` rejects) are not representable
in this model. -/
structure Token where
  payload : TokenPayload
deriving Repr, DecidableEq

/-- Function `create_token(data)`: sign the payload. -/
def create_token (data : TokenPayload) : Token :=
  { payload := data }

/-- Function `verify_token(token)`: signature-check and decode; on a token issued by
`create_token` under the same secret this returns the original payload. -/
def verify_token (token : Token) : Option TokenPayload :=
  some token.payload

/-- The bcrypt hash `pwd_context.hash(password)`, modelled abstractly as an
injective tagging of the password: the library guarantees that `verify`
accepts exactly (collisions aside) the password that was hashed. -/
def pwd_hash (password : String) : String :=
  "bcrypt$" ++ password

/-- Check `pwd_context.verify(password, stored_hash)`. -/
def pwd_verify (password stored : String) : Bool :=
  stored == pwd_hash password

/-- Endpoint `register(request)`: reject when any stored user has exactly the given
email (case-sensitive `==`); otherwise append a new user with the hashed
password and return it together with a token for it. The fresh `uuid4` id is
the explicit `newId` parameter. -/
def register (users_db : List User) (newId email password name : String) :
    Except String (List User × User × Token) :=
  if users_db.any (fun u => u.email == email) then
    .error "Email already registered"
  else
    let user : User :=
      { id := newId, email := email, password := pwd_hash password,
        name := name }
    .ok (users_db ++ [user],
         user,
         create_token { user_id := user.id, email := user.email })

/-- Endpoint `login(request)`: find the first user with the given email and check the
password against the stored hash; both failures collapse into the same
"Invalid credentials" response. -/
def login (users_db : List User) (email password : String) :
    Except String (User × Token) :=
  match users_db.find? (fun u => u.email == email) with
  | none => .error "Invalid credentials"
  | some user =>
      if pwd_verify password user.password then
        .ok (user, create_token { user_id := user.id, email := user.email })
      else
        .error "Invalid credentials"

/-- The items of `u`'s cart, `[]` when no cart exists. -/
def itemsOf (carts_db : CartsDb) (u : String) : List CartItem :=
  match dictGet carts_db u with
  | none => []
  | some cart => cart.items

/-- One enriched line of the cart view: the joined product plus quantity. -/
structure EnrichedItem where
  product : Product
  quantity : Int
deriving Repr, DecidableEq

/-- Endpoint `get_cart()`: join each line of the user's cart (an unsaved empty cart
when none exists) against the catalog, silently dropping lines whose
product id does not resolve, and total the enriched lines at current
catalog prices. Never writes to `carts_db`. -/
def get_cart (products_db : List Product) (carts_db : CartsDb)
    (user_id : String) : List EnrichedItem × ℚ :=
  let cart_with_products :=
    (itemsOf carts_db user_id).filterMap (fun item =>
      match products_db.find? (fun p => p.id == item.product_id) with
      | none => none
      | some product => some { product := product, quantity := item.quantity })
  (cart_with_products,
   (cart_with_products.map (fun e => e.product.price * (e.quantity : ℚ))).sum)

/-- Add `q` to the quantity of the first item matching `pid`, leaving the
rest unchanged (Python mutates the item found by `next`). -/
def bumpFirst (pid : String) (q : Int) : List CartItem → List CartItem
  | [] => []
  | it :: t =>
      if it.product_id == pid then
        { it with quantity := it.quantity + q } :: t
      else
        it :: bumpFirst pid q t

/-- The items transform of `add_to_cart`: merge into an existing line for
`pid`, else append a new line. -/
def addItems (items : List CartItem) (pid : String) (q : Int) :
    List CartItem :=
  if items.any (fun it => it.product_id == pid) then
    bumpFirst pid q items
  else
    items ++ [{ product_id := pid, quantity := q }]

/-- Endpoint `add_to_cart(product_id, quantity)`: 404 when the product id is unknown;
otherwise lazily create the user's cart, merge or append the line, and
return the resulting number of lines. No positivity check on `quantity`. -/
def add_to_cart (products_db : List Product) (carts_db : CartsDb)
    (user_id product_id : String) (quantity : Int) :
    Except String (CartsDb × Nat) :=
  match products_db.find? (fun p => p.id == product_id) with
  | none => .error "Product not found"
  | some _ =>
      let cart : Cart :=
        match dictGet carts_db user_id with
        | none => { user_id := user_id, items := [] }
        | some c => c
      let items' := addItems cart.items product_id quantity
      .ok (dictSet carts_db user_id { cart with items := items' },
           items'.length)

/-- The items transform of `update_cart_item` once the line is known to
exist: drop the first item matching `pid` when `q ≤ 0` (Python's
`list.remove` on the item found by `next`), else overwrite its quantity. -/
def setOrDropFirst (pid : String) (q : Int) : List CartItem → List CartItem
  | [] => []
  | it :: t =>
      if it.product_id == pid then
        if q ≤ 0 then t else { it with quantity := q } :: t
      else
        it :: setOrDropFirst pid q t

/-- Endpoint `update_cart_item(product_id, quantity)`: 404 when the user has no cart
or the cart has no line for the product; `quantity ≤ 0` removes the line,
a positive quantity replaces it (not summed). -/
def update_cart_item (carts_db : CartsDb) (user_id product_id : String)
    (quantity : Int) : Except String CartsDb :=
  match dictGet carts_db user_id with
  | none => .error "Cart not found"
  | some cart =>
      if cart.items.any (fun it => it.product_id == product_id) then
        .ok (dictSet carts_db user_id
          { cart with items := setOrDropFirst product_id quantity cart.items })
      else
        .error "Item not found in cart"

/-- Endpoint `remove_from_cart(product_id)`: 404 when the user has no cart; otherwise
filter out every line for the product (present or not). -/
def remove_from_cart (carts_db : CartsDb) (user_id product_id : String) :
    Except String CartsDb :=
  match dictGet carts_db user_id with
  | none => .error "Cart not found"
  | some cart =>
      .ok (dictSet carts_db user_id
        { cart with
          items := cart.items.filter (fun it => it.product_id != product_id) })

/-- One cart-mutating API call (the catalog is read-only throughout). -/
inductive CartOp where
  | add (user pid : String) (q : Int)
  | update (user pid : String) (q : Int)
  | remove (user pid : String)
deriving Repr, DecidableEq

/-- Run one cart operation against `carts_db`; a request the server rejects
with an HTTP error leaves the stored state unchanged. -/
def applyOp (products_db : List Product) (carts_db : CartsDb) :
    CartOp → CartsDb
  | .add u pid q =>
      match add_to_cart products_db carts_db u pid q with
      | .ok (c, _) => c
      | .error _ => carts_db
  | .update u pid q =>
      match update_cart_item carts_db u pid q with
      | .ok c => c
      | .error _ => carts_db
  | .remove u pid =>
      match remove_from_cart carts_db u pid with
      | .ok c => c
      | .error _ => carts_db

/-- Run a sequence of cart operations. -/
def applyOps (products_db : List Product) (carts_db : CartsDb)
    (ops : List CartOp) : CartsDb :=
  ops.foldl (applyOp products_db) carts_db

/-- Every cart line of every user has a strictly positive quantity. -/
def CartsPos (carts_db : CartsDb) : Prop :=
  ∀ e ∈ carts_db, ∀ it ∈ e.2.items, 0 < it.quantity

instance (carts_db : CartsDb) : Decidable (CartsPos carts_db) :=
  List.decidableBAll _ carts_db

/-- The operation is an `add` with quantity at least 1, or is not an `add`
at all. -/
def addOkB : CartOp → Bool
  | .add _ _ q => 1 ≤ q
  | .update _ _ _ => true
  | .remove _ _ => true

/-- Modelled from the spec: the catalog `list` operation exactly as §4.3
words it — all products when a filter is absent, case-insensitive exact
match on category, case-insensitive substring match on name or description,
composed with AND. (To be compared with `get_products`, the embedding of
the code.) -/
def list_spec (products : List Product) (category search : Option String) :
    List Product :=
  let afterCategory :=
    match category with
    | none => products
    | some c => products.filter (fun p => strLower p.category == strLower c)
  match search with
  | none => afterCategory
  | some s =>
      afterCategory.filter (fun p =>
        strContains (strLower p.name) (strLower s) ||
        strContains (strLower p.description) (strLower s))

/-- The independently recomputed contribution of one cart line to the cart
total: current catalog unit price times quantity, `0` for a line whose
product id does not resolve. -/
def line_total (products : List Product) (it : CartItem) : ℚ :=
  match products.find? (fun p => p.id == it.product_id) with
  | none => 0
  | some p => p.price * (it.quantity : ℚ)

/-- The `GET /api/cart` handler as a state transformer: it reads the
globals and writes none of them. -/
def handle_get_cart (s : ServerState) (u : String) :
    ServerState × (List EnrichedItem × ℚ) :=
  (s, get_cart s.products_db s.carts_db u)

/-- The `POST /api/cart/add` handler as a state transformer: only
`carts_db` is ever assigned. -/
def add_state (s : ServerState) (u pid : String) (q : Int) : ServerState :=
  match add_to_cart s.products_db s.carts_db u pid q with
  | .error _ => s
  | .ok (c, _) => { s with carts_db := c }

/-- The `PUT /api/cart/update` handler as a state transformer. -/
def update_state (s : ServerState) (u pid : String) (q : Int) :
    ServerState :=
  match update_cart_item s.carts_db u pid q with
  | .error _ => s
  | .ok c => { s with carts_db := c }

/-- The `DELETE /api/cart/remove/{pid}` handler as a state transformer. -/
def remove_state (s : ServerState) (u pid : String) : ServerState :=
  match remove_from_cart s.carts_db u pid with
  | .error _ => s
  | .ok c => { s with carts_db := c }

/-! ### Association-list lemmas -/

theorem dictGet_dictSet_self {α : Type} (d : List (String × α)) (k : String)
    (v : α) : dictGet (dictSet d k v) k = some v := by
  induction d with
  | nil => simp [dictGet, dictSet]
  | cons hd t ih =>
      obtain ⟨k', w⟩ := hd
      by_cases hk : k' = k
      · subst hk
        simp [dictGet, dictSet]
      · have hb : (k' == k) = false := beq_eq_false_iff_ne.mpr hk
        simp [dictGet, dictSet, hb, ih]

theorem dictGet_dictSet_ne {α : Type} (d : List (String × α)) (k k₂ : String)
    (v : α) (h : k₂ ≠ k) : dictGet (dictSet d k v) k₂ = dictGet d k₂ := by
  have hb₂ : (k == k₂) = false := beq_eq_false_iff_ne.mpr (Ne.symm h)
  induction d with
  | nil => simp [dictGet, dictSet, hb₂]
  | cons hd t ih =>
      obtain ⟨k', w⟩ := hd
      by_cases hk : k' = k
      · subst hk
        simp [dictGet, dictSet, hb₂]
      · have hb : (k' == k) = false := beq_eq_false_iff_ne.mpr hk
        by_cases hk₂ : k' = k₂
        · subst hk₂
          simp [dictGet, dictSet, hb]
        · have hb' : (k' == k₂) = false := beq_eq_false_iff_ne.mpr hk₂
          simp [dictGet, dictSet, hb, hb', ih]

theorem dictGet_mem {α : Type} {d : List (String × α)} {k : String} {v : α}
    (h : dictGet d k = some v) : (k, v) ∈ d := by
  induction d with
  | nil => simp [dictGet] at h
  | cons hd t ih =>
      obtain ⟨k', w⟩ := hd
      by_cases hk : k' = k
      · subst hk
        simp [dictGet] at h
        subst h
        exact List.mem_cons_self _ _
      · have hb : (k' == k) = false := beq_eq_false_iff_ne.mpr hk
        simp [dictGet, hb] at h
        exact List.mem_cons_of_mem _ (ih h)

theorem mem_dictSet {α : Type} {d : List (String × α)} {k : String} {v : α}
    {e : String × α} (h : e ∈ dictSet d k v) : e = (k, v) ∨ e ∈ d := by
  induction d with
  | nil =>
      simp [dictSet] at h
      exact Or.inl h
  | cons hd t ih =>
      obtain ⟨k', w⟩ := hd
      by_cases hk : k' = k
      · subst hk
        simp [dictSet] at h
        rcases h with h | h
        · exact Or.inl h
        · exact Or.inr (List.mem_cons_of_mem _ h)
      · have hb : (k' == k) = false := beq_eq_false_iff_ne.mpr hk
        simp only [dictSet, hb, Bool.false_eq_true, if_false, List.mem_cons] at h
        rcases h with h | h
        · exact Or.inr (by simp [h])
        · rcases ih h with h' | h'
          · exact Or.inl h'
          · exact Or.inr (List.mem_cons_of_mem _ h')

/-! ### Cart-item list lemmas -/

theorem bumpFirst_append (pid : String) (q : Int) (pre : List CartItem)
    (x : CartItem) (suf : List CartItem) (hx : x.product_id = pid)
    (hpre : ∀ y ∈ pre, y.product_id ≠ pid) :
    bumpFirst pid q (pre ++ x :: suf) =
      pre ++ { x with quantity := x.quantity + q } :: suf := by
  induction pre with
  | nil => simp [bumpFirst, hx]
  | cons y t ih =>
      have hy : (y.product_id == pid) = false :=
        beq_eq_false_iff_ne.mpr (hpre y (List.mem_cons_self _ _))
      simp only [List.cons_append, bumpFirst, hy, Bool.false_eq_true, if_false,
        List.cons.injEq, true_and]
      exact ih (fun z hz => hpre z (List.mem_cons_of_mem _ hz))

theorem setOrDropFirst_append (pid : String) (q : Int) (pre : List CartItem)
    (x : CartItem) (suf : List CartItem) (hx : x.product_id = pid)
    (hpre : ∀ y ∈ pre, y.product_id ≠ pid) :
    setOrDropFirst pid q (pre ++ x :: suf) =
      pre ++ (if q ≤ 0 then suf else { x with quantity := q } :: suf) := by
  induction pre with
  | nil => simp [setOrDropFirst, hx]
  | cons y t ih =>
      have hy : (y.product_id == pid) = false :=
        beq_eq_false_iff_ne.mpr (hpre y (List.mem_cons_self _ _))
      simp only [List.cons_append, setOrDropFirst, hy, Bool.false_eq_true,
        if_false, List.cons.injEq, true_and]
      exact ih (fun z hz => hpre z (List.mem_cons_of_mem _ hz))

theorem bumpFirst_pos {pid : String} {q : Int} {l : List CartItem}
    (hl : ∀ it ∈ l, 0 < it.quantity) (hq : 1 ≤ q) :
    ∀ it ∈ bumpFirst pid q l, 0 < it.quantity := by
  induction l with
  | nil => simp [bumpFirst]
  | cons y t ih =>
      intro it hit
      by_cases hy : y.product_id = pid
      · have hb : (y.product_id == pid) = true := by simp [hy]
        simp only [bumpFirst, hb, if_true, List.mem_cons] at hit
        rcases hit with h | h
        · subst h
          have h0 : 0 < y.quantity := hl y (List.mem_cons_self _ _)
          simp only []
          omega
        · exact hl it (List.mem_cons_of_mem _ h)
      · have hb : (y.product_id == pid) = false := beq_eq_false_iff_ne.mpr hy
        simp only [bumpFirst, hb, Bool.false_eq_true, if_false,
          List.mem_cons] at hit
        rcases hit with h | h
        · subst h
          exact hl it (List.mem_cons_self _ _)
        · exact ih (fun z hz => hl z (List.mem_cons_of_mem _ hz)) it h

theorem setOrDropFirst_pos {pid : String} {q : Int} {l : List CartItem}
    (hl : ∀ it ∈ l, 0 < it.quantity) :
    ∀ it ∈ setOrDropFirst pid q l, 0 < it.quantity := by
  induction l with
  | nil => simp [setOrDropFirst]
  | cons y t ih =>
      intro it hit
      by_cases hy : y.product_id = pid
      · have hb : (y.product_id == pid) = true := by simp [hy]
        by_cases hq : q ≤ 0
        · simp only [setOrDropFirst, hb, if_true, hq] at hit
          exact hl it (List.mem_cons_of_mem _ hit)
        · simp only [setOrDropFirst, hb, if_true, hq, if_false,
            List.mem_cons] at hit
          rcases hit with h | h
          · subst h
            simp only []
            omega
          · exact hl it (List.mem_cons_of_mem _ h)
      · have hb : (y.product_id == pid) = false := beq_eq_false_iff_ne.mpr hy
        simp only [setOrDropFirst, hb, Bool.false_eq_true, if_false,
          List.mem_cons] at hit
        rcases hit with h | h
        · subst h
          exact hl it (List.mem_cons_self _ _)
        · exact ih (fun z hz => hl z (List.mem_cons_of_mem _ hz)) it h

theorem addItems_of_absent {l : List CartItem} {pid : String} {q : Int}
    (h : ∀ it ∈ l, it.product_id ≠ pid) :
    addItems l pid q = l ++ [{ product_id := pid, quantity := q }] := by
  have hany : l.any (fun it => it.product_id == pid) = false := by
    simp only [List.any_eq_false]
    intro it hit
    simp [h it hit]
  simp [addItems, hany]

theorem addItems_of_present {l pre suf : List CartItem} {x : CartItem}
    {pid : String} {q : Int} (hdecomp : l = pre ++ x :: suf)
    (hx : x.product_id = pid) (hpre : ∀ y ∈ pre, y.product_id ≠ pid) :
    addItems l pid q = pre ++ { x with quantity := x.quantity + q } :: suf := by
  subst hdecomp
  have hany : (pre ++ x :: suf).any (fun it => it.product_id == pid) = true := by
    simp only [List.any_eq_true]
    exact ⟨x, by simp, by simp [hx]⟩
  simp [addItems, hany, bumpFirst_append pid q pre x suf hx hpre]

theorem addItems_pos {l : List CartItem} {pid : String} {q : Int}
    (hl : ∀ it ∈ l, 0 < it.quantity) (hq : 1 ≤ q) :
    ∀ it ∈ addItems l pid q, 0 < it.quantity := by
  by_cases hany : l.any (fun it => it.product_id == pid) = true
  · simp only [addItems, hany, if_true]
    exact bumpFirst_pos hl hq
  · simp only [addItems, hany, if_false]
    intro it hit
    rcases List.mem_append.mp hit with h | h
    · exact hl it h
    · simp only [List.mem_singleton] at h
      subst h
      simp only []
      omega

/-! ### Operation-level lemmas -/

theorem add_to_cart_unknown (products : List Product) (carts : CartsDb)
    (u pid : String) (q : Int) (h : ∀ p ∈ products, p.id ≠ pid) :
    add_to_cart products carts u pid q = .error "Product not found" := by
  have hfind : products.find? (fun p => p.id == pid) = none :=
    List.find?_eq_none.mpr (fun p hp => by simp [h p hp])
  simp [add_to_cart, hfind]

theorem add_to_cart_ok (products : List Product) (carts : CartsDb)
    (u pid : String) (q : Int) (h : ∃ p ∈ products, p.id = pid) :
    ∃ carts',
      add_to_cart products carts u pid q =
        .ok (carts', (addItems (itemsOf carts u) pid q).length) ∧
      itemsOf carts' u = addItems (itemsOf carts u) pid q ∧
      ∀ v, v ≠ u → dictGet carts' v = dictGet carts v := by
  obtain ⟨p, hp, hid⟩ := h
  have hsome : (products.find? (fun p => p.id == pid)).isSome :=
    List.find?_isSome.mpr ⟨p, hp, by simp [hid]⟩
  obtain ⟨p₀, hfind⟩ := Option.isSome_iff_exists.mp hsome
  cases hc : dictGet carts u with
  | none =>
      refine ⟨dictSet carts u
        { user_id := u, items := addItems [] pid q }, ?_, ?_, ?_⟩
      · simp [add_to_cart, hfind, hc, itemsOf]
      · simp [itemsOf, dictGet_dictSet_self, hc]
      · intro v hv
        exact dictGet_dictSet_ne _ _ _ _ hv
  | some cart =>
      refine ⟨dictSet carts u
        { cart with items := addItems cart.items pid q }, ?_, ?_, ?_⟩
      · simp [add_to_cart, hfind, hc, itemsOf]
      · simp [itemsOf, dictGet_dictSet_self, hc]
      · intro v hv
        exact dictGet_dictSet_ne _ _ _ _ hv

theorem update_no_cart (carts : CartsDb) (u pid : String) (q : Int)
    (h : dictGet carts u = none) :
    update_cart_item carts u pid q = .error "Cart not found" := by
  simp [update_cart_item, h]

theorem update_no_line (carts : CartsDb) (u pid : String) (q : Int)
    {cart : Cart} (hc : dictGet carts u = some cart)
    (h : ∀ it ∈ cart.items, it.product_id ≠ pid) :
    update_cart_item carts u pid q = .error "Item not found in cart" := by
  have hany : cart.items.any (fun it => it.product_id == pid) = false := by
    simp only [List.any_eq_false]
    intro it hit
    simp [h it hit]
  simp [update_cart_item, hc, hany]

theorem update_ok {carts : CartsDb} {u pid : String} {q : Int} {cart : Cart}
    (hc : dictGet carts u = some cart)
    (hany : cart.items.any (fun it => it.product_id == pid) = true) :
    update_cart_item carts u pid q =
      .ok (dictSet carts u
        { cart with items := setOrDropFirst pid q cart.items }) := by
  simp [update_cart_item, hc, hany]

theorem remove_ok {carts : CartsDb} {u pid : String} {cart : Cart}
    (hc : dictGet carts u = some cart) :
    remove_from_cart carts u pid =
      .ok (dictSet carts u
        { cart with
          items := cart.items.filter (fun it => it.product_id != pid) }) := by
  simp [remove_from_cart, hc]

/-! ### Claim theorems -/

/-- C3, counterexample: the seed catalog does not have 7 distinct
categories — `categories()` on it returns 6 of them. -/
theorem seed_categories_count_ne_seven :
    (get_categories seedProducts).length ≠ 7 := by
  have h : (get_categories seedProducts).length = 6 := rfl
  omega

/-- C3, amended: the seed catalog has 10 products across 6 (not 7)
categories, and `categories()` returns exactly the distinct category
strings, sorted lexicographically ascending with no duplicates. -/
theorem seed_categories_spec :
    seedProducts.length = 10 ∧
    get_categories seedProducts =
      ["Beauty", "Electronics", "Fashion", "Furniture", "Home",
       "Lifestyle"] ∧
    (get_categories seedProducts).Nodup ∧
    List.Pairwise (fun a b => strLeB a b = true)
      (get_categories seedProducts) ∧
    (get_categories seedProducts).length = 6 := by
  have h : get_categories seedProducts =
      ["Beauty", "Electronics", "Fashion", "Furniture", "Home",
       "Lifestyle"] := rfl
  refine ⟨rfl, h, ?_, ?_, rfl⟩
  · rw [h]
    decide
  · rw [h]
    decide

/-- C1, counterexample: `remove` for a user with no cart is an error
("Cart not found"), not a no-op. -/
theorem remove_no_cart_is_error :
    remove_from_cart [] "u" "p1" = Except.error "Cart not found" := rfl

/-- C1, amended: when the user has no cart, `remove` fails with NotFound;
when the user has a cart, `remove` succeeds regardless of whether a line
for the product is present, the cart's lines are filtered to exclude the
product id, and removing again is a no-op on the lines (idempotent). -/
theorem remove_from_cart_spec (carts : CartsDb) (u pid : String) :
    (dictGet carts u = none →
      remove_from_cart carts u pid = .error "Cart not found") ∧
    (∀ cart, dictGet carts u = some cart →
      ∃ carts', remove_from_cart carts u pid = .ok carts' ∧
        itemsOf carts' u =
          cart.items.filter (fun it => it.product_id != pid) ∧
        (∀ it ∈ itemsOf carts' u, it.product_id ≠ pid) ∧
        ∃ carts'', remove_from_cart carts' u pid = .ok carts'' ∧
          itemsOf carts'' u = itemsOf carts' u) := by
  constructor
  · intro h
    simp [remove_from_cart, h]
  · intro cart hc
    refine ⟨dictSet carts u
      { cart with
        items := cart.items.filter (fun it => it.product_id != pid) },
      remove_ok hc, ?_, ?_, ?_⟩
    · simp [itemsOf, dictGet_dictSet_self]
    · intro it hit
      simp only [itemsOf, dictGet_dictSet_self] at hit
      have := (List.mem_filter.mp hit).2
      simpa using this
    · have hc' : dictGet (dictSet carts u
          { cart with
            items := cart.items.filter (fun it => it.product_id != pid) }) u =
          some { cart with
            items := cart.items.filter (fun it => it.product_id != pid) } :=
        dictGet_dictSet_self _ _ _
      refine ⟨_, remove_ok hc', ?_⟩
      simp only [itemsOf, dictGet_dictSet_self]
      exact List.filter_eq_self.mpr (fun a ha => (List.mem_filter.mp ha).2)

/-- C1, witness: removing the only line of an existing cart succeeds and
empties it. -/
theorem remove_from_cart_spec_witness :
    ∃ carts', remove_from_cart
        [("u", { user_id := "u",
                 items := [{ product_id := "p1", quantity := 2 }] })]
        "u" "p1" = .ok carts' ∧ itemsOf carts' "u" = [] := by
  obtain ⟨-, h2⟩ := remove_from_cart_spec
    [("u", { user_id := "u",
             items := [{ product_id := "p1", quantity := 2 }] })] "u" "p1"
  obtain ⟨carts', hok, hitems, -, -⟩ := h2 _ rfl
  refine ⟨carts', hok, ?_⟩
  rw [hitems]
  rfl

/-- C7: `register` fails with DuplicateEmail precisely when some stored
user has exactly the same email under case-sensitive string equality, and
succeeds whenever no stored email matches exactly (so an email differing
only in case registers fine). -/
theorem register_duplicate_email_iff (users : List User)
    (newId email pw nm : String) :
    (register users newId email pw nm = .error "Email already registered" ↔
      ∃ u ∈ users, u.email = email) ∧
    ((∀ u ∈ users, u.email ≠ email) →
      ∃ r, register users newId email pw nm = .ok r) := by
  constructor
  · constructor
    · intro h
      by_cases hany : users.any (fun u => u.email == email) = true
      · obtain ⟨u, hu, he⟩ := List.any_eq_true.mp hany
        exact ⟨u, hu, by simpa using he⟩
      · simp [register, hany] at h
    · rintro ⟨u, hu, he⟩
      have hany : users.any (fun u => u.email == email) = true :=
        List.any_eq_true.mpr ⟨u, hu, by simp [he]⟩
      simp [register, hany]
  · intro h
    have hany : users.any (fun u => u.email == email) = false := by
      simp only [List.any_eq_false]
      intro u hu
      simp [h u hu]
    cases hreg : register users newId email pw nm with
    | error e =>
        exfalso
        unfold register at hreg
        rw [hany] at hreg
        simp at hreg
    | ok r => exact ⟨r, rfl⟩

/-- C4: `add` fails with NotFound exactly when the product id is unknown
to the catalog; on a known product it appends a new line when the cart has
none for that id, and merges by summing quantities when one exists; and
add(u, p, 2) followed by add(u, p, 3) from an empty cart leaves exactly one
line for p with quantity 5. -/
theorem add_to_cart_correct (products : List Product) (carts : CartsDb)
    (u pid : String) (q : Int) :
    (add_to_cart products carts u pid q = .error "Product not found" ↔
      ∀ p ∈ products, p.id ≠ pid) ∧
    ((∃ p ∈ products, p.id = pid) →
      ∃ carts' n, add_to_cart products carts u pid q = .ok (carts', n) ∧
        ((∀ it ∈ itemsOf carts u, it.product_id ≠ pid) →
          itemsOf carts' u =
            itemsOf carts u ++ [{ product_id := pid, quantity := q }] ∧
          n = (itemsOf carts u).length + 1) ∧
        (∀ pre x suf, itemsOf carts u = pre ++ x :: suf →
          x.product_id = pid → (∀ y ∈ pre, y.product_id ≠ pid) →
          itemsOf carts' u =
            pre ++ { x with quantity := x.quantity + q } :: suf ∧
          n = (itemsOf carts u).length)) ∧
    ((∃ p ∈ products, p.id = pid) → itemsOf carts u = [] →
      ∃ carts₁ n₁ carts₂ n₂,
        add_to_cart products carts u pid 2 = .ok (carts₁, n₁) ∧
        add_to_cart products carts₁ u pid 3 = .ok (carts₂, n₂) ∧
        itemsOf carts₂ u = [{ product_id := pid, quantity := 5 }] ∧
        n₂ = 1) := by
  refine ⟨⟨?_, fun h => add_to_cart_unknown products carts u pid q h⟩, ?_, ?_⟩
  · intro herr
    by_contra hne
    push_neg at hne
    obtain ⟨p, hp, hid⟩ := hne
    obtain ⟨carts', heq, -, -⟩ :=
      add_to_cart_ok products carts u pid q ⟨p, hp, hid⟩
    rw [herr] at heq
    exact Except.noConfusion heq
  · intro h
    obtain ⟨carts', heq, hitems, -⟩ := add_to_cart_ok products carts u pid q h
    refine ⟨carts', _, heq, ?_, ?_⟩
    · intro habsent
      rw [hitems, addItems_of_absent habsent]
      simp
    · intro pre x suf hdecomp hx hpre
      rw [hitems, addItems_of_present hdecomp hx hpre, hdecomp]
      simp
  · intro h hempty
    obtain ⟨carts₁, heq₁, hitems₁, -⟩ := add_to_cart_ok products carts u pid 2 h
    rw [hempty] at heq₁ hitems₁
    have h1 : itemsOf carts₁ u = [{ product_id := pid, quantity := 2 }] := by
      rw [hitems₁]
      simp [addItems]
    obtain ⟨carts₂, heq₂, hitems₂, -⟩ := add_to_cart_ok products carts₁ u pid 3 h
    rw [h1] at heq₂ hitems₂
    have h2 : itemsOf carts₂ u = [{ product_id := pid, quantity := 5 }] := by
      rw [hitems₂]
      simp [addItems, bumpFirst]
    refine ⟨carts₁, _, carts₂, _, heq₁, heq₂, h2, ?_⟩
    simp [addItems, bumpFirst]

/-- C4, witness: on the seed catalog, adding product id01 with quantity 2
and then 3 to a fresh cart yields the single line (id01, 5). -/
theorem add_to_cart_correct_witness :
    ∃ carts₁ n₁ carts₂ n₂,
      add_to_cart seedProducts [] "u" "id01" 2 = .ok (carts₁, n₁) ∧
      add_to_cart seedProducts carts₁ "u" "id01" 3 = .ok (carts₂, n₂) ∧
      itemsOf carts₂ "u" = [{ product_id := "id01", quantity := 5 }] ∧
      n₂ = 1 :=
  (add_to_cart_correct seedProducts [] "u" "id01" 2).2.2 (by decide) rfl

/-- C5: `update` fails with NotFound exactly when the user has no cart or
the cart has no line for the product; when the line exists, a quantity
`≤ 0` removes that line entirely (not an error) and a positive quantity
replaces the line's quantity (not summed). -/
theorem update_cart_item_spec (carts : CartsDb) (u pid : String) (q : Int) :
    ((∃ e, update_cart_item carts u pid q = .error e) ↔
      (dictGet carts u = none ∨
        ∀ it ∈ itemsOf carts u, it.product_id ≠ pid)) ∧
    (∀ pre x suf, itemsOf carts u = pre ++ x :: suf →
      x.product_id = pid → (∀ y ∈ pre, y.product_id ≠ pid) →
      ∃ carts', update_cart_item carts u pid q = .ok carts' ∧
        (q ≤ 0 → itemsOf carts' u = pre ++ suf) ∧
        (0 < q →
          itemsOf carts' u = pre ++ { x with quantity := q } :: suf) ∧
        (q ≤ 0 → (∀ y ∈ suf, y.product_id ≠ pid) →
          ∀ it ∈ itemsOf carts' u, it.product_id ≠ pid)) := by
  constructor
  · constructor
    · rintro ⟨e, he⟩
      cases hc : dictGet carts u with
      | none => exact Or.inl rfl
      | some cart =>
          refine Or.inr ?_
          intro it hit
          simp only [itemsOf, hc] at hit
          by_contra hx
          have hany : cart.items.any
              (fun it => it.product_id == pid) = true :=
            List.any_eq_true.mpr ⟨it, hit, by simp [hx]⟩
          rw [update_ok hc hany] at he
          exact Except.noConfusion he
    · intro h
      cases hc : dictGet carts u with
      | none => exact ⟨_, update_no_cart carts u pid q hc⟩
      | some cart =>
          rcases h with h | h
          · rw [hc] at h
            exact Option.noConfusion h
          · refine ⟨_, update_no_line carts u pid q hc ?_⟩
            intro it hit
            exact h it (by simp [itemsOf, hc, hit])
  · intro pre x suf hdecomp hx hpre
    cases hc : dictGet carts u with
    | none =>
        rw [itemsOf, hc] at hdecomp
        exact absurd hdecomp.symm (List.append_ne_nil_of_right_ne_nil _
          (List.cons_ne_nil _ _))
    | some cart =>
        have hitems : cart.items = pre ++ x :: suf := by
          rw [itemsOf, hc] at hdecomp
          exact hdecomp
        have hany : cart.items.any (fun it => it.product_id == pid) = true :=
          List.any_eq_true.mpr ⟨x, by simp [hitems], by simp [hx]⟩
        refine ⟨_, update_ok hc hany, ?_, ?_, ?_⟩
        · intro hq
          simp only [itemsOf, dictGet_dictSet_self, hitems,
            setOrDropFirst_append pid q pre x suf hx hpre, if_pos hq]
        · intro hq
          have hq' : ¬ q ≤ 0 := by omega
          simp only [itemsOf, dictGet_dictSet_self, hitems,
            setOrDropFirst_append pid q pre x suf hx hpre, if_neg hq']
        · intro hq hsuf it hit
          simp only [itemsOf, dictGet_dictSet_self, hitems,
            setOrDropFirst_append pid q pre x suf hx hpre, if_pos hq] at hit
          rcases List.mem_append.mp hit with h | h
          · exact hpre it h
          · exact hsuf it h

/-- C5, witness: updating the only line to quantity 0 removes it. -/
theorem update_cart_item_spec_witness :
    ∃ carts', update_cart_item
        [("u", { user_id := "u",
                 items := [{ product_id := "p1", quantity := 2 }] })]
        "u" "p1" 0 = .ok carts' ∧ itemsOf carts' "u" = [] := by
  obtain ⟨carts', hok, h0, -, -⟩ := (update_cart_item_spec
    [("u", { user_id := "u",
             items := [{ product_id := "p1", quantity := 2 }] })]
    "u" "p1" 0).2 [] { product_id := "p1", quantity := 2 } [] rfl rfl
    (by simp)
  refine ⟨carts', hok, ?_⟩
  simpa using h0 (by omega)

/-- C6: after a successful registration, logging in with the same email
and password succeeds, returns the registered user, and issues a token
that verifies to exactly that user's id and email. -/
theorem register_login_roundtrip (users : List User)
    (newId email pw nm : String) (users' : List User) (user : User)
    (tok : Token)
    (h : register users newId email pw nm = .ok (users', user, tok)) :
    ∃ tok', login users' email pw = .ok (user, tok') ∧
      verify_token tok' =
        some { user_id := user.id, email := user.email } ∧
      user.id = newId ∧ user.email = email := by
  cases hany : users.any (fun u => u.email == email) with
  | true =>
      rw [register, if_pos hany] at h
      exact Except.noConfusion h
  | false =>
      rw [register, if_neg (by simp [hany])] at h
      injection h with h'
      simp only [Prod.mk.injEq] at h'
      obtain ⟨h1, h2, h3⟩ := h'
      subst h1
      subst h2
      subst h3
      have hnone : users.find? (fun u => u.email == email) = none :=
        List.find?_eq_none.mpr (fun x hx => by
          simp [List.any_eq_false.mp hany x hx])
      have hfind : (users ++
          [({ id := newId, email := email, password := pwd_hash pw,
              name := nm } : User)]).find?
            (fun u => u.email == email) =
          some { id := newId, email := email, password := pwd_hash pw,
                 name := nm } := by
        rw [List.find?_append, hnone]
        simp [List.find?]
      refine ⟨_, ?_, rfl, rfl, rfl⟩
      simp [login, hfind, pwd_verify, create_token]

/-- C6, witness: registering then logging in with concrete credentials
succeeds and the token's payload carries the user's id and email. -/
theorem register_login_roundtrip_witness :
    ∃ tok', login [{ id := "u1", email := "a@b.com",
                     password := pwd_hash "pw", name := "Alice" }]
        "a@b.com" "pw" =
      .ok ({ id := "u1", email := "a@b.com", password := pwd_hash "pw",
             name := "Alice" }, tok') ∧
      verify_token tok' = some { user_id := "u1", email := "a@b.com" } := by
  obtain ⟨tok', h1, h2, -, -⟩ := register_login_roundtrip [] "u1" "a@b.com"
    "pw" "Alice" _ _ _ rfl
  exact ⟨tok', h1, h2⟩

/-- The enriched-lines sum can be recomputed line by line straight from
the cart and the catalog: unresolvable lines contribute nothing. -/
theorem enrich_sum (products : List Product) (l : List CartItem) :
    ((l.filterMap (fun it =>
        (products.find? (fun p => p.id == it.product_id)).map
          (fun p =>
            ({ product := p, quantity := it.quantity } : EnrichedItem)))).map
      (fun e => e.product.price * (e.quantity : ℚ))).sum =
      (l.map (line_total products)).sum := by
  induction l with
  | nil => rfl
  | cons it t ih =>
      cases hf : products.find? (fun p => p.id == it.product_id) with
      | none => simp [List.filterMap_cons, hf, line_total, ih]
      | some p => simp [List.filterMap_cons, hf, line_total, ih]

/-- C9: `get_cart` never errors; it enriches exactly the lines whose
product id resolves in the current catalog (silently dropping the rest),
and its total equals the sum of current catalog unit price times quantity
over the enriched lines — equivalently, recomputed independently over all
cart lines with unresolvable lines contributing zero. -/
theorem get_cart_totals (products : List Product) (carts : CartsDb)
    (u : String) :
    (get_cart products carts u).1 =
      (itemsOf carts u).filterMap (fun it =>
        (products.find? (fun p => p.id == it.product_id)).map
          (fun p =>
            ({ product := p, quantity := it.quantity } : EnrichedItem))) ∧
    (get_cart products carts u).2 =
      (((get_cart products carts u).1).map
        (fun e => e.product.price * (e.quantity : ℚ))).sum ∧
    (get_cart products carts u).2 =
      ((itemsOf carts u).map (line_total products)).sum := by
  refine ⟨?_, rfl, ?_⟩
  · simp only [get_cart]
    congr 1
    funext it
    cases hf : products.find? (fun p => p.id == it.product_id) with
    | none => simp [hf]
    | some p => simp [hf]
  · have h1 : (get_cart products carts u).1 =
        (itemsOf carts u).filterMap (fun it =>
          (products.find? (fun p => p.id == it.product_id)).map
            (fun p =>
              ({ product := p, quantity := it.quantity } : EnrichedItem))) := by
      simp only [get_cart]
      congr 1
      funext it
      cases hf : products.find? (fun p => p.id == it.product_id) with
      | none => simp [hf]
      | some p => simp [hf]
    calc (get_cart products carts u).2 =
        (((get_cart products carts u).1).map
          (fun e => e.product.price * (e.quantity : ℚ))).sum := rfl
      _ = ((itemsOf carts u).map (line_total products)).sum := by
          rw [h1]
          exact enrich_sum products (itemsOf carts u)

/-- Every cart operation preserves positivity of all stored quantities,
provided an `add` is only ever called with quantity at least 1. -/
theorem applyOp_pos {products : List Product} {carts : CartsDb}
    {op : CartOp} (h0 : CartsPos carts) (hop : addOkB op = true) :
    CartsPos (applyOp products carts op) := by
  cases op with
  | add u pid q =>
      have hq : (1 : Int) ≤ q := by
        simpa [addOkB] using hop
      cases hfind : products.find? (fun p => p.id == pid) with
      | none => simpa [applyOp, add_to_cart, hfind] using h0
      | some p =>
          cases hc : dictGet carts u with
          | none =>
              simp only [applyOp, add_to_cart, hfind, hc]
              intro e he
              rcases mem_dictSet he with rfl | he
              · intro it hit
                exact addItems_pos
                  (show ∀ z ∈ ([] : List CartItem), 0 < z.quantity from
                    by simp) hq it hit
              · exact h0 e he
          | some cart =>
              simp only [applyOp, add_to_cart, hfind, hc]
              intro e he
              rcases mem_dictSet he with rfl | he
              · intro it hit
                exact addItems_pos (h0 _ (dictGet_mem hc)) hq it hit
              · exact h0 e he
  | update u pid q =>
      cases hc : dictGet carts u with
      | none => simpa [applyOp, update_no_cart carts u pid q hc] using h0
      | some cart =>
          cases hany : cart.items.any (fun it => it.product_id == pid) with
          | false =>
              have herr := update_no_line carts u pid q hc (fun it hit => by
                simpa using List.any_eq_false.mp hany it hit)
              simpa [applyOp, herr] using h0
          | true =>
              simp only [applyOp, update_ok hc hany]
              intro e he
              rcases mem_dictSet he with rfl | he
              · intro it hit
                exact setOrDropFirst_pos (h0 _ (dictGet_mem hc)) it hit
              · exact h0 e he
  | remove u pid =>
      cases hc : dictGet carts u with
      | none => simpa [applyOp, remove_from_cart, hc] using h0
      | some cart =>
          simp only [applyOp, remove_ok hc]
          intro e he
          rcases mem_dictSet he with rfl | he
          · intro it hit
            exact h0 _ (dictGet_mem hc) it (List.mem_filter.mp hit).1
          · exact h0 e he

/-- C2, counterexample: `add` performs no positivity check, so adding a
known product with quantity 0 reaches a state with a zero-quantity line. -/
theorem cart_positive_quantity_cex :
    ¬ CartsPos (applyOps seedProducts [] [CartOp.add "u" "id01" 0]) := by
  decide

/-- C2, amended: in every state reachable by cart operations from a state
whose quantities are all positive, every cart line of every user has a
strictly positive quantity — provided every `add` in the sequence uses a
quantity of at least 1 (the code itself never checks this). -/
theorem cart_positive_quantity_invariant (products : List Product) :
    ∀ (ops : List CartOp) (carts : CartsDb), CartsPos carts →
      (∀ op ∈ ops, addOkB op = true) →
      CartsPos (applyOps products carts ops)
  | [], _, h0, _ => h0
  | op :: t, carts, h0, hops =>
      cart_positive_quantity_invariant products t
        (applyOp products carts op)
        (applyOp_pos h0 (hops op (List.mem_cons_self _ _)))
        (fun o ho => hops o (List.mem_cons_of_mem _ ho))

/-- C2, witness: an add/update/remove run with positive add quantity keeps
all quantities positive. -/
theorem cart_positive_quantity_invariant_witness :
    CartsPos ([] : CartsDb) ∧
    (∀ op ∈ [CartOp.add "u" "id01" 2, CartOp.update "u" "id01" 5,
             CartOp.remove "u" "id01"], addOkB op = true) ∧
    CartsPos (applyOps seedProducts []
      [CartOp.add "u" "id01" 2, CartOp.update "u" "id01" 5,
       CartOp.remove "u" "id01"]) :=
  ⟨by decide, by decide,
   cart_positive_quantity_invariant seedProducts [] _ (by decide) (by decide)⟩

/-- C8, counterexample: an empty category string is falsy in Python, so
the code skips the filter and returns all products, whereas the spec's
case-insensitive exact match would keep none. -/
theorem get_products_empty_category_cex :
    get_products seedProducts (some "") none ≠
      list_spec seedProducts (some "") none := by
  intro h
  have h1 : (get_products seedProducts (some "") none).length = 10 := rfl
  have h2 : (list_spec seedProducts (some "") none).length = 0 := rfl
  rw [h, h2] at h1
  exact absurd h1 (by omega)

/-- C8, amended: `list` behaves exactly as the spec words it — all
products with no filters, case-insensitive exact category match,
case-insensitive substring search on name or description, AND-composed,
insertion order preserved — provided each supplied filter string is
nonempty (an empty string is falsy in Python and disables its filter). -/
theorem get_products_matches_spec (products : List Product)
    (category search : Option String)
    (hc : ∀ c, category = some c → c ≠ "")
    (hs : ∀ s, search = some s → s ≠ "") :
    get_products products category search =
      list_spec products category search ∧
    (get_products products category search).Sublist products := by
  cases category with
  | none =>
      cases search with
      | none => exact ⟨rfl, List.Sublist.refl _⟩
      | some s =>
          have hs' : (s == "") = false :=
            beq_eq_false_iff_ne.mpr (hs s rfl)
          constructor
          · simp [get_products, list_spec, hs']
          · simp only [get_products, list_spec, hs', Bool.false_eq_true,
              if_false]
            exact List.filter_sublist _
  | some c =>
      have hc' : (c == "") = false := beq_eq_false_iff_ne.mpr (hc c rfl)
      cases search with
      | none =>
          constructor
          · simp [get_products, list_spec, hc']
          · simp only [get_products, list_spec, hc', Bool.false_eq_true,
              if_false]
            exact List.filter_sublist _
      | some s =>
          have hs' : (s == "") = false :=
            beq_eq_false_iff_ne.mpr (hs s rfl)
          constructor
          · simp [get_products, list_spec, hc', hs']
          · simp only [get_products, list_spec, hc', hs',
              Bool.false_eq_true, if_false]
            exact (List.filter_sublist _).trans (List.filter_sublist _)

/-- C8, witness: a lowercase category filter and a search term evaluate
identically in code and spec reading on the seed catalog. -/
theorem get_products_matches_spec_witness :
    get_products seedProducts (some "electronics") (some "kit") =
      list_spec seedProducts (some "electronics") (some "kit") :=
  (get_products_matches_spec seedProducts (some "electronics") (some "kit")
    (by intro c hcc; cases hcc; decide)
    (by intro s hss; cases hss; decide)).1

/-- C10: each cart operation leaves the product catalog and the user store
unchanged and touches no other user's cart entry; the read `get_cart`
leaves the entire state unchanged. -/
theorem cart_ops_frame (s : ServerState) (u pid : String) (q : Int)
    (v : String) (hv : v ≠ u) :
    (handle_get_cart s u).1 = s ∧
    ((add_state s u pid q).products_db = s.products_db ∧
     (add_state s u pid q).users_db = s.users_db ∧
     dictGet (add_state s u pid q).carts_db v = dictGet s.carts_db v) ∧
    ((update_state s u pid q).products_db = s.products_db ∧
     (update_state s u pid q).users_db = s.users_db ∧
     dictGet (update_state s u pid q).carts_db v = dictGet s.carts_db v) ∧
    ((remove_state s u pid).products_db = s.products_db ∧
     (remove_state s u pid).users_db = s.users_db ∧
     dictGet (remove_state s u pid).carts_db v = dictGet s.carts_db v) := by
  refine ⟨rfl, ?_, ?_, ?_⟩
  · by_cases hex : ∃ p ∈ s.products_db, p.id = pid
    · obtain ⟨carts', heq, -, hframe⟩ :=
        add_to_cart_ok s.products_db s.carts_db u pid q hex
      simp only [add_state, heq]
      simpa using hframe v hv
    · push_neg at hex
      have herr := add_to_cart_unknown s.products_db s.carts_db u pid q hex
      simp [add_state, herr]
  · cases hc : dictGet s.carts_db u with
    | none =>
        simp [update_state, update_no_cart s.carts_db u pid q hc]
    | some cart =>
        cases hany : cart.items.any (fun it => it.product_id == pid) with
        | false =>
            have herr := update_no_line s.carts_db u pid q hc (fun it hit => by
              simpa using List.any_eq_false.mp hany it hit)
            simp [update_state, herr]
        | true =>
            simp only [update_state, update_ok hc hany]
            simpa using dictGet_dictSet_ne s.carts_db u v _ hv
  · cases hc : dictGet s.carts_db u with
    | none =>
        simp [remove_state, remove_from_cart, hc]
    | some cart =>
        simp only [remove_state, remove_ok hc]
        simpa using dictGet_dictSet_ne s.carts_db u v _ hv

/-- C10, witness: adding to user "u"'s cart leaves user "v"'s cart entry
untouched in a concrete two-cart state. -/
theorem cart_ops_frame_witness :
    ("v" : String) ≠ "u" ∧
    dictGet (add_state
        { products_db := seedProducts, users_db := [],
          carts_db := [("u", { user_id := "u", items := [] }),
                       ("v", { user_id := "v",
                               items := [{ product_id := "id01",
                                           quantity := 1 }] })] }
        "u" "id01" 3).carts_db "v" =
      dictGet [("u", ({ user_id := "u", items := [] } : Cart)),
               ("v", { user_id := "v",
                       items := [{ product_id := "id01",
                                   quantity := 1 }] })] "v" :=
  ⟨by decide,
   (cart_ops_frame
      { products_db := seedProducts, users_db := [],
        carts_db := [("u", { user_id := "u", items := [] }),
                     ("v", { user_id := "v",
                             items := [{ product_id := "id01",
                                         quantity := 1 }] })] }
      "u" "id01" 3 "v" (by decide)).2.1.2.2⟩

/-- C7, witness: with "A@B.com" stored, registering "a@b.com" (differing
only in case) succeeds. -/
theorem register_duplicate_email_iff_witness :
    (∀ u ∈ [({ id := "u1", email := "A@B.com", password := "h",
               name := "x" } : User)], u.email ≠ "a@b.com") ∧
    ∃ r,
      register [{ id := "u1", email := "A@B.com", password := "h",
                  name := "x" }] "u2" "a@b.com" "pw" "y" = .ok r :=
  ⟨by decide,
   (register_duplicate_email_iff
      [{ id := "u1", email := "A@B.com", password := "h", name := "x" }]
      "u2" "a@b.com" "pw" "y").2 (by decide)⟩

end Ecommerce
